import Mathlib

/-!
Verification of the ArrayBuffer subsystem of the `boa` JavaScript engine
(`src/boa/src/builtins/array_buffer/mod.rs`), shallowly embedded in Lean.

Machine integers are modelled as `Nat`/`Int` with explicit reduction modulo
`2 ^ w`.  IEEE-754 floating-point values (JavaScript Numbers) are modelled by
their binary64 bit patterns (a `Nat` below `2 ^ 64`), and `f32` values by
their binary32 bit patterns; the Rust serialization `to_le_bytes` /
`from_le_bytes` on floats is bit-pattern preserving, so the byte codec is
embedded exactly at the bit-pattern level.  Fallible operations return
`Except JsErr`.

The numeric coercion helpers (`to_int8`, `to_uint8_clamp`, `to_number`,
`to_big_int64`, ...) live in boa's `value` module, which is not part of the
sources under verification; they are modelled from the specification's
coercion rules (ToIntN / ToUintN modular reduction, ToUint8Clamp rounding,
ToBigInt64 / ToBigUint64 reduction, ToNumber).
-/

/-- JavaScript error kinds produced by the ArrayBuffer subsystem, with the
message strings used by the source. -/
inductive JsErr where
  | typeError (msg : String)
  | rangeError (msg : String)
  | syntaxError (msg : String)
  deriving Repr, DecidableEq

/-- A JavaScript numeric value as seen by the codec:
`integer i` is a Number with integral mathematical value `i` (boa represents
it as the `Integer` variant carrying an `i32`, or as an exact `Rational`);
`rational b` is a Number given by its binary64 bit pattern `b < 2 ^ 64`;
`bigint i` is a BigInt with mathematical value `i`. -/
inductive JsVal where
  | integer (i : ℤ)
  | rational (bits : ℕ)
  | bigint (i : ℤ)
  deriving Repr, DecidableEq

/-- Model of boa's `IntegerOrInfinity` (the result of `ToIntegerOrInfinity`). -/
inductive IntegerOrInfinity where
  | negativeInfinity
  | integer (i : ℤ)
  | positiveInfinity
  deriving Repr, DecidableEq

/-- The ten element types (source: `TypedArrayName` in boa's typed-array
module). -/
inductive TypedArrayName where
  | int8Array
  | uint8Array
  | uint8ClampedArray
  | int16Array
  | uint16Array
  | int32Array
  | uint32Array
  | bigInt64Array
  | bigUint64Array
  | float32Array
  | float64Array
  deriving Repr, DecidableEq

/-- Placeholder shared-memory order taxonomy (source: `SharedMemoryOrder`). -/
inductive SharedMemoryOrder where
  | init
  | seqCst
  | unordered
  deriving Repr, DecidableEq

/-- Model of the `ArrayBuffer` struct: an optional byte block (`none` means
detached), the byte-length field, and the detach key (`none` models the
JavaScript `undefined` value). -/
structure ArrayBuffer where
  array_buffer_data : Option (List ℕ)
  array_buffer_byte_length : ℕ
  array_buffer_detach_key : Option JsVal
  deriving Repr, DecidableEq

/-- `25.1.2.2 IsDetachedBuffer`: the buffer is detached iff its data block is
absent. -/
def ArrayBuffer.is_detached_buffer (b : ArrayBuffer) : Bool :=
  b.array_buffer_data.isNone

/-! ### Byte-level helpers

Rust's `iN::to_le_bytes` / `uN::to_le_bytes` produce the base-256 digits of
the two's-complement representation, least significant first, and
`to_be_bytes` produces the reverse; `from_le_bytes` / `from_be_bytes` invert
them.  The helpers below embed exactly that. -/

/-- The `w` little-endian base-256 digits of `u` (Rust `to_le_bytes` of a
`w`-byte unsigned integer). -/
def le_bytes : ℕ → ℕ → List ℕ
  | 0, _ => []
  | w + 1, u => u % 256 :: le_bytes w (u / 256)

/-- Recompose a little-endian byte list into an unsigned integer
(Rust `from_le_bytes`). -/
def bytes_to_nat : List ℕ → ℕ
  | [] => 0
  | b :: bs => b + 256 * bytes_to_nat bs

/-- Reinterpret an unsigned `bits`-wide value as signed two's complement
(Rust `iN::from_le_bytes` after `bytes_to_nat`). -/
def signed_of_unsigned (bits : ℕ) (u : ℕ) : ℤ :=
  if (u : ℤ) < 2 ^ (bits - 1) then (u : ℤ) else (u : ℤ) - 2 ^ bits

/-- Two's-complement reduction of an integer into the signed `bits`-wide
range (the spec's ToIntN). -/
def signed_reduce (bits : ℕ) (i : ℤ) : ℤ :=
  signed_of_unsigned bits (i % (2 ^ bits)).toNat

/-- Reduction of an integer into the unsigned `bits`-wide range (the spec's
ToUintN). -/
def unsigned_reduce (bits : ℕ) (i : ℤ) : ℤ :=
  i % (2 ^ bits)

/-! ### IEEE-754 bit-pattern helpers

JavaScript Numbers are binary64 values; boa stores them as `f64`.  The codec
casts to and from `f32` for the `Float32` element type.  These functions
implement the casts exactly, on bit patterns, with round-to-nearest-even,
following the Rust `as`-cast semantics (overflow goes to infinity, NaN maps
to a NaN; the spec permits NaN canonicalization). -/

/-- Round-to-nearest-even of the fraction `m / 2 ^ shift`. -/
def round_half_even (m : ℕ) (shift : ℕ) : ℕ :=
  let q := m / 2 ^ shift
  let r := m % 2 ^ shift
  if 2 * r > 2 ^ shift ∨ (2 * r = 2 ^ shift ∧ q % 2 = 1) then q + 1 else q

/-- Widen a binary32 bit pattern to the binary64 bit pattern of the same
value (the exact `f32` to `f64` cast). -/
def f32_bits_to_f64_bits (c : ℕ) : ℕ :=
  let c := c % 2 ^ 32
  let s := c / 2 ^ 31
  let e := c / 2 ^ 23 % 2 ^ 8
  let m := c % 2 ^ 23
  (if e = 255 then
    -- infinity or NaN: widen the exponent field, shift the payload
    s * 2 ^ 63 + 2047 * 2 ^ 52 + m * 2 ^ 29
  else if e = 0 then
    if m = 0 then s * 2 ^ 63
    else
      -- subnormal `m * 2 ^ (-149)`: normalize into binary64
      let l := Nat.log2 m
      s * 2 ^ 63 + (l + 874) * 2 ^ 52 + (m * 2 ^ (52 - l) - 2 ^ 52)
  else
    s * 2 ^ 63 + (e + 896) * 2 ^ 52 + m * 2 ^ 29) % 2 ^ 64

/-- Narrow a binary64 bit pattern to binary32 with round-to-nearest-even
(the `f64` to `f32` `as`-cast). -/
def f64_bits_to_f32_bits (b : ℕ) : ℕ :=
  let b := b % 2 ^ 64
  let s : ℕ := b / 2 ^ 63
  let e : ℕ := b / 2 ^ 52 % 2 ^ 11
  let m : ℕ := b % 2 ^ 52
  ((if e = 2047 then
    if m = 0 then s * 2 ^ 31 + 255 * 2 ^ 23        -- infinity
    else s * 2 ^ 31 + 255 * 2 ^ 23 + 2 ^ 22        -- canonical quiet NaN
  else
    -- finite value `bigM * 2 ^ (e64 - 1075)`
    let bigM : ℕ := if e = 0 then m else 2 ^ 52 + m
    if bigM = 0 then s * 2 ^ 31
    else
      let e64 : ℤ := (if e = 0 then 1 else (e : ℤ)) - 1075
      let l := Nat.log2 bigM                       -- value = bigM * 2 ^ e64, 2 ^ l ≤ bigM
      let bigE : ℤ := (l : ℤ) + e64                -- floor of log2 of the value
      -- quantum exponent of the binary32 target
      let t : ℤ := if bigE ≥ -126 then bigE - 23 else -149
      let shift : ℤ := t - e64
      let q := if shift ≤ 0 then bigM * 2 ^ (-shift).toNat
               else round_half_even bigM shift.toNat
      -- re-express if rounding carried into the next binade
      let qe : ℕ × ℤ := if q = 2 ^ 24 then (2 ^ 23, t + 1) else (q, t)
      let q := qe.1
      let t := qe.2
      if q = 0 then s * 2 ^ 31
      else
        let bigE : ℤ := (Nat.log2 q : ℤ) + t
        if bigE ≥ 128 then s * 2 ^ 31 + 255 * 2 ^ 23   -- overflow to infinity
        else if bigE ≥ -126 then
          -- normal: q has its top bit at position 23
          s * 2 ^ 31 + ((bigE + 127).toNat) * 2 ^ 23 + (q - 2 ^ 23)
        else
          -- subnormal result, quantum 2 ^ (-149)
          s * 2 ^ 31 + q : ℕ)) % 2 ^ 32

/-- Binary64 bit pattern of an integer, rounding to nearest even
(the exact semantics of converting an integer to a JavaScript Number). -/
def int_to_f64_bits (i : ℤ) : ℕ :=
  let s : ℕ := if i < 0 then 1 else 0
  let n := i.natAbs
  (if n = 0 then 0
  else
    let l := Nat.log2 n
    if l ≤ 52 then
      s * 2 ^ 63 + (l + 1023) * 2 ^ 52 + (n * 2 ^ (52 - l) - 2 ^ 52)
    else
      let q := round_half_even n (l - 52)
      let ql : ℕ × ℕ := if q = 2 ^ 53 then (2 ^ 52, l + 1) else (q, l)
      if ql.2 + 1023 ≥ 2047 then s * 2 ^ 63 + 2047 * 2 ^ 52   -- overflow to infinity
      else s * 2 ^ 63 + (ql.2 + 1023) * 2 ^ 52 + (ql.1 - 2 ^ 52)) % 2 ^ 64

/-- Truncation of a binary64 value toward zero, with NaN and the infinities
mapped to `0` (the integer used by the spec's ToIntN / ToUintN on a
non-integral Number). -/
def f64_trunc_or_zero (b : ℕ) : ℤ :=
  let b := b % 2 ^ 64
  let s := b / 2 ^ 63
  let e := b / 2 ^ 52 % 2 ^ 11
  let m := b % 2 ^ 52
  if e = 2047 then 0
  else
    let bigM := if e = 0 then m else 2 ^ 52 + m
    let e' := if e = 0 then 1 else e
    let mag : ℕ := if 1075 ≤ e' then bigM * 2 ^ (e' - 1075) else bigM / 2 ^ (1075 - e')
    if s = 1 then -(mag : ℤ) else (mag : ℤ)

/-- The spec's ToUint8Clamp on a binary64 bit pattern: NaN to `0`, values at
most `0` to `0`, values at least `255` to `255`, otherwise round half to
even. -/
def uint8_clamp_of_bits (b : ℕ) : ℤ :=
  let b := b % 2 ^ 64
  let s := b / 2 ^ 63
  let e := b / 2 ^ 52 % 2 ^ 11
  let m := b % 2 ^ 52
  if e = 2047 then
    if m ≠ 0 then 0                 -- NaN
    else if s = 1 then 0 else 255   -- infinities clamp
  else if s = 1 then 0              -- value ≤ 0
  else
    let bigM : ℕ := if e = 0 then m else 2 ^ 52 + m
    let e' : ℕ := if e = 0 then 1 else e
    if 1075 ≤ e' then ((min 255 (bigM * 2 ^ (e' - 1075)) : ℕ) : ℤ)
    else ((min 255 (round_half_even bigM (1075 - e')) : ℕ) : ℤ)

/-! ### Numeric coercions

Modelled from the spec: these live in boa's `value` module, which is not
among the sources under verification.  Spec rules (§4.4): Int8/16/32 and
Uint8/16/32 use ToIntN / ToUintN modular reduction after truncating the
Number toward zero (NaN and the infinities give 0); Uint8Clamped clamps to
`[0, 255]` with round half to even; BigInt64 / BigUint64 coerce BigInts by
64-bit modular reduction and fail with a TypeError on any non-BigInt;
ToNumber of a BigInt fails with a TypeError. -/

/-- Modelled from the spec: the integral value used by ToIntN / ToUintN
(convert to Number, truncate; NaN and infinities give 0); a BigInt is not
coercible to a Number. -/
def to_integer_step (v : JsVal) : Except JsErr ℤ :=
  match v with
  | .integer i => .ok i
  | .rational b => .ok (f64_trunc_or_zero b)
  | .bigint _ => .error (.typeError "cannot convert bigint to number")

/-- Modelled from the spec: ToInt8. -/
def to_int8 (v : JsVal) : Except JsErr ℤ :=
  (to_integer_step v).map (signed_reduce 8)

/-- Modelled from the spec: ToUint8. -/
def to_uint8 (v : JsVal) : Except JsErr ℤ :=
  (to_integer_step v).map (unsigned_reduce 8)

/-- Modelled from the spec: ToUint8Clamp (NaN gives 0, clamp to `[0, 255]`,
round half to even). -/
def to_uint8_clamp (v : JsVal) : Except JsErr ℤ :=
  match v with
  | .integer i => .ok (min 255 (max 0 i))
  | .rational b => .ok (uint8_clamp_of_bits b)
  | .bigint _ => .error (.typeError "cannot convert bigint to number")

/-- Modelled from the spec: ToInt16. -/
def to_int16 (v : JsVal) : Except JsErr ℤ :=
  (to_integer_step v).map (signed_reduce 16)

/-- Modelled from the spec: ToUint16. -/
def to_uint16 (v : JsVal) : Except JsErr ℤ :=
  (to_integer_step v).map (unsigned_reduce 16)

/-- Modelled from the spec: ToInt32 (boa's `to_i32`). -/
def to_i32 (v : JsVal) : Except JsErr ℤ :=
  (to_integer_step v).map (signed_reduce 32)

/-- Modelled from the spec: ToUint32 (boa's `to_u32`). -/
def to_u32 (v : JsVal) : Except JsErr ℤ :=
  (to_integer_step v).map (unsigned_reduce 32)

/-- Modelled from the spec: ToBigInt64 — a non-BigInt fails with a
TypeError, a BigInt is reduced two's-complement into the signed 64-bit
range. -/
def to_big_int64 (v : JsVal) : Except JsErr ℤ :=
  match v with
  | .bigint i => .ok (signed_reduce 64 i)
  | _ => .error (.typeError "cannot convert value to bigint")

/-- Modelled from the spec: ToBigUint64. -/
def to_big_uint64 (v : JsVal) : Except JsErr ℤ :=
  match v with
  | .bigint i => .ok (unsigned_reduce 64 i)
  | _ => .error (.typeError "cannot convert value to bigint")

/-- Modelled from the spec: ToNumber, returning the binary64 bit pattern of
the resulting Number; a BigInt fails with a TypeError. -/
def to_number (v : JsVal) : Except JsErr ℕ :=
  match v with
  | .integer i => .ok (int_to_f64_bits i)
  | .rational b => .ok (b % 2 ^ 64)
  | .bigint _ => .error (.typeError "cannot convert bigint to number")

/-- The saturating conversion of an arbitrary-precision integer into `i64`
(source: `big_int.to_i64().unwrap_or_else(...)` with `i64::MAX` for positive
values and `i64::MIN` otherwise). -/
def big_int_to_i64_saturating (i : ℤ) : ℤ :=
  if -(2 ^ 63) ≤ i ∧ i < 2 ^ 63 then i
  else if 0 < i then 2 ^ 63 - 1 else -(2 ^ 63)

/-- The saturating conversion of an arbitrary-precision integer into `u64`
(source: `.to_u64().unwrap_or(u64::MAX)`). -/
def big_int_to_u64_saturating (i : ℤ) : ℤ :=
  if 0 ≤ i ∧ i < 2 ^ 64 then i else 2 ^ 64 - 1

/-- Element byte widths (source: `TypedArrayName::element_size` in boa's
typed-array module; the widths are fixed by the spec's Table 73). -/
def element_size (t : TypedArrayName) : ℕ :=
  match t with
  | .int8Array | .uint8Array | .uint8ClampedArray => 1
  | .int16Array | .uint16Array => 2
  | .int32Array | .uint32Array | .float32Array => 4
  | .bigInt64Array | .bigUint64Array | .float64Array => 8

/-! ### Codec -/

/-- `25.1.2.9 RawBytesToNumeric`: decode a byte list of length
`element_size t` into a numeric value.  Each source arm applies
`from_le_bytes` or `from_be_bytes`; `from_be_bytes` equals `from_le_bytes`
of the reversed list, so the orientation is hoisted.  Boa renders `i8`
through `u32` results as Numbers, `i64`/`u64` results as BigInts, and float
results as Numbers (an `f32` is widened to `f64`). -/
def raw_bytes_to_numeric (t : TypedArrayName) (bytes : List ℕ)
    (is_little_endian : Bool) : JsVal :=
  let bs := if is_little_endian then bytes else bytes.reverse
  let u := bytes_to_nat bs
  match t with
  | .int8Array => .integer (signed_of_unsigned 8 u)
  | .uint8Array | .uint8ClampedArray => .integer u
  | .int16Array => .integer (signed_of_unsigned 16 u)
  | .uint16Array => .integer u
  | .int32Array => .integer (signed_of_unsigned 32 u)
  | .uint32Array => .integer u
  | .bigInt64Array => .bigint (signed_of_unsigned 64 u)
  | .bigUint64Array => .bigint u
  | .float32Array => .rational (f32_bits_to_f64_bits u)
  | .float64Array => .rational u

/-- Orient a little-endian byte list: Rust's `to_be_bytes` is the reverse of
`to_le_bytes`. -/
def orient_bytes (is_little_endian : Bool) (bs : List ℕ) : List ℕ :=
  if is_little_endian then bs else bs.reverse

/-- The `w` bytes of the two's-complement representation of `v`, in the
requested endianness. -/
def int_bytes (w : ℕ) (v : ℤ) (is_little_endian : Bool) : List ℕ :=
  orient_bytes is_little_endian (le_bytes w (v % (2 ^ (8 * w))).toNat)

/-- `25.1.2.11 NumericToRawBytes`: coerce `value` through the element
type's coercion and encode it into `element_size t` bytes in the requested
endianness.  The coercion may fail (BigInt element types reject non-BigInts,
Number coercions reject BigInts); the error propagates unchanged. -/
def numeric_to_raw_bytes (t : TypedArrayName) (value : JsVal)
    (is_little_endian : Bool) : Except JsErr (List ℕ) :=
  match t with
  | .int8Array => (to_int8 value).map (fun v => int_bytes 1 v is_little_endian)
  | .uint8Array => (to_uint8 value).map (fun v => int_bytes 1 v is_little_endian)
  | .uint8ClampedArray =>
      (to_uint8_clamp value).map (fun v => int_bytes 1 v is_little_endian)
  | .int16Array => (to_int16 value).map (fun v => int_bytes 2 v is_little_endian)
  | .uint16Array => (to_uint16 value).map (fun v => int_bytes 2 v is_little_endian)
  | .int32Array => (to_i32 value).map (fun v => int_bytes 4 v is_little_endian)
  | .uint32Array => (to_u32 value).map (fun v => int_bytes 4 v is_little_endian)
  | .bigInt64Array =>
      (to_big_int64 value).map
        (fun b => int_bytes 8 (big_int_to_i64_saturating b) is_little_endian)
  | .bigUint64Array =>
      (to_big_uint64 value).map
        (fun b => int_bytes 8 (big_int_to_u64_saturating b) is_little_endian)
  | .float32Array =>
      (to_number value).map
        (fun f => orient_bytes is_little_endian (le_bytes 4 (f64_bits_to_f32_bits f)))
  | .float64Array =>
      (to_number value).map
        (fun f => orient_bytes is_little_endian (le_bytes 8 f))

/-! ### Byte blocks -/

/-- Read a byte of a block, `0` out of bounds (in-source accesses are always
in bounds, asserted by the Rust indexing). -/
def get_byte : List ℕ → ℕ → ℕ
  | [], _ => 0
  | b :: _, 0 => b
  | _ :: t, i + 1 => get_byte t i

/-- Write a byte of a block in place, a no-op out of bounds (in-source
accesses are always in bounds, asserted by the Rust indexing). -/
def set_byte : List ℕ → ℕ → ℕ → List ℕ
  | [], _, _ => []
  | _ :: t, 0, v => v :: t
  | b :: t, i + 1, v => b :: set_byte t i v

/-- `6.2.8.3 CopyDataBlockBytes`: copy `count` bytes of `from_block`
starting at `from_index` into `to_block` starting at `to_index`.  The
source asserts `from_index + count ≤ |from_block|` and
`to_index + count ≤ |to_block|`; callers below establish both. -/
def copy_data_block_bytes (to_block : List ℕ) (to_index : ℕ)
    (from_block : List ℕ) (from_index : ℕ) (count : ℕ) : List ℕ :=
  match count with
  | 0 => to_block
  | c + 1 =>
      copy_data_block_bytes (set_byte to_block to_index (get_byte from_block from_index))
        (to_index + 1) from_block (from_index + 1) c

/-- The byte of an ArrayBuffer at index `i` (`0` when detached or out of
bounds). -/
def buffer_byte (b : ArrayBuffer) (i : ℕ) : ℕ :=
  get_byte (b.array_buffer_data.getD []) i

/-! ### ArrayBuffer operations -/

/-- `25.1.2.1 AllocateArrayBuffer`: allocate a zero-filled block of
`byte_length` bytes, guarded by the source's out-of-memory cap
`8589934592 = 2 ^ 33`.  The prototype lookup through the constructor is
host object machinery outside this subsystem and is modelled as succeeding;
the detach key is initialized to `undefined`. -/
def allocate (byte_length : ℕ) : Except JsErr ArrayBuffer :=
  if byte_length > 8589934592 then
    .error (.rangeError "ArrayBuffer allocation failed")
  else
    .ok { array_buffer_data := some (List.replicate byte_length 0)
          array_buffer_byte_length := byte_length
          array_buffer_detach_key := none }

/-- The receiver of `ArrayBuffer.prototype.byteLength`: a non-object value,
an object without the ArrayBuffer internal data, or an ArrayBuffer object. -/
inductive ReceiverVal where
  | nonObjectValue
  | otherObject
  | arrayBufferObject (b : ArrayBuffer)
  deriving Repr, DecidableEq

/-- `25.1.5.1 get ArrayBuffer.prototype.byteLength`: require the receiver to
be an ArrayBuffer object (TypeError otherwise); a detached buffer reports
`0`, otherwise the byte-length field is returned. -/
def byte_length (this : ReceiverVal) : Except JsErr ℕ :=
  match this with
  | .nonObjectValue =>
      .error (.typeError "ArrayBuffer.byteLength called with non-object value")
  | .otherObject =>
      .error (.typeError "ArrayBuffer.byteLength called with invalid object")
  | .arrayBufferObject o =>
      if o.is_detached_buffer then .ok 0
      else .ok o.array_buffer_byte_length

/-- Kinds of JavaScript objects relevant to `isView`.  Modelled from the
spec: typed arrays and DataViews are the objects carrying a
`ViewedArrayBuffer` internal slot; a DataView is a distinct object kind and
is not a typed array. -/
inductive ObjectKind where
  | arrayBufferKind
  | typedArrayKind
  | dataViewKind
  | ordinaryKind
  deriving Repr, DecidableEq

/-- An argument value passed to `ArrayBuffer.isView`. -/
inductive JsArg where
  | nonObjectArg
  | objectArg (k : ObjectKind)
  deriving Repr, DecidableEq

/-- Modelled from the spec: boa's `Object::is_typed_array`, true exactly for
typed-array objects. -/
def is_typed_array (k : ObjectKind) : Bool :=
  match k with
  | .typedArrayKind => true
  | _ => false

/-- Modelled from the spec: an object carries a `ViewedArrayBuffer` internal
slot iff it is a typed array or a DataView. -/
def has_viewed_array_buffer_slot (k : ObjectKind) : Bool :=
  match k with
  | .typedArrayKind | .dataViewKind => true
  | _ => false

/-- `25.1.4.1 ArrayBuffer.isView`: the source returns
`arg.as_object().map(|obj| obj.borrow().is_typed_array()).unwrap_or_default()`. -/
def is_view (arg : JsArg) : Bool :=
  match arg with
  | .nonObjectArg => false
  | .objectArg k => is_typed_array k

/-- `25.1.2.4 CloneArrayBuffer`: allocate a target of `src_length` bytes
(the clone constructor contributes only the prototype, which is host
machinery), then fail on a detached source — with the source's
`construct_syntax_error` — and otherwise copy `src_length` bytes from
`src_byte_offset`. -/
def clone_array_buffer (src : ArrayBuffer) (src_byte_offset : ℕ)
    (src_length : ℕ) : Except JsErr ArrayBuffer :=
  match allocate src_length with
  | .error e => .error e
  | .ok target =>
      match src.array_buffer_data with
      | none => .error (.syntaxError "Cannot clone detached array buffer")
      | some src_block =>
          .ok { target with
                array_buffer_data :=
                  some (copy_data_block_bytes
                    (target.array_buffer_data.getD []) 0 src_block
                    src_byte_offset src_length) }

/-- Store a byte list into a block starting at `byte_index` (the source's
`for (i, raw_byte) in raw_bytes.iter().enumerate()` loop). -/
def write_bytes (block : List ℕ) (byte_index : ℕ) : List ℕ → List ℕ
  | [] => block
  | b :: bs => write_bytes (set_byte block byte_index b) (byte_index + 1) bs

/-- `25.1.2.12 SetValueInBuffer`: coerce and encode `value` through
`numeric_to_raw_bytes` (which may fail; the error is returned unchanged and
nothing is written), then store the raw bytes at `byte_index`.  The source
asserts the buffer is attached and the access in bounds.  The returned pair
is the completion value (`undefined` on success) and the buffer after the
call. -/
def set_value_in_buffer (buf : ArrayBuffer) (byte_index : ℕ)
    (t : TypedArrayName) (value : JsVal) (_order : SharedMemoryOrder)
    (is_little_endian : Option Bool) : Except JsErr Unit × ArrayBuffer :=
  match numeric_to_raw_bytes t value (is_little_endian.getD true) with
  | .error e => (.error e, buf)
  | .ok raw_bytes =>
      (.ok (),
        { buf with
          array_buffer_data :=
            buf.array_buffer_data.map (fun block => write_bytes block byte_index raw_bytes) })

/-! ### slice -/

/-- The relative-index rule of `slice` steps 7-9 and 11-13: negative
infinity gives `0`, a negative integer gives `max (len + i) 0`, a
non-negative integer gives `min i len`, positive infinity gives `len`. -/
def slice_relative_index (len : ℤ) (r : IntegerOrInfinity) : ℤ :=
  match r with
  | .negativeInfinity => 0
  | .integer i => if i < 0 then max (len + i) 0 else min i len
  | .positiveInfinity => len

/-- What the species constructor call of `slice` step 16 returns: an error,
a non-object value, an object without ArrayBuffer data, or an ArrayBuffer
object (with a flag recording whether it is the very same object as the
receiver, for the SameValue check of step 20). -/
inductive CtorRet where
  | throwsError (e : JsErr)
  | nonObjectValue
  | invalidObject
  | bufferObject (same_as_source : Bool) (buf : ArrayBuffer)

/-- The observable outcome of the species constructor call: its returned
value together with whether its user-reachable side effects detached the
source buffer (spec step 22 note). -/
structure CtorOutcome where
  detaches_source : Bool
  ret : CtorRet

/-- The default `%ArrayBuffer%` constructor used when no species override is
in play: it allocates a fresh (hence distinct and attached) buffer of the
requested length and has no side effects on the source. -/
def default_ctor (n : ℕ) : CtorOutcome :=
  match allocate n with
  | .ok b => { detaches_source := false, ret := .bufferObject false b }
  | .error e => { detaches_source := false, ret := .throwsError e }

/-- `25.1.5.3 ArrayBuffer.prototype.slice`, for a receiver that is an
ArrayBuffer object.  `ctor` models the species-constructor dispatch of
steps 15-16, which is user-reachable code: it receives the requested length
and yields the constructed value plus its side effect on the source.  The
steps follow the source: detached-receiver check, relative indices, length
computation, construct, result validation (object, ArrayBuffer, attached,
distinct, long enough), the step-23 detach re-check of the receiver, and
the `CopyDataBlockBytes` call. -/
def ArrayBuffer.slice (buf : ArrayBuffer) (relative_start : IntegerOrInfinity)
    (end_arg : Option IntegerOrInfinity) (ctor : ℕ → CtorOutcome) :
    Except JsErr ArrayBuffer :=
  if buf.is_detached_buffer then
    .error (.typeError "ArrayBuffer.slice called with detached buffer")
  else
    let len : ℤ := buf.array_buffer_byte_length
    let first := slice_relative_index len relative_start
    let relative_end := end_arg.getD (.integer len)
    let last := slice_relative_index len relative_end
    let new_len : ℕ := (max (last - first) 0).toNat
    let outcome := ctor new_len
    let src_after : ArrayBuffer :=
      if outcome.detaches_source then { buf with array_buffer_data := none } else buf
    match outcome.ret with
    | .throwsError e => .error e
    | .nonObjectValue =>
        .error (.typeError "ArrayBuffer constructor returned non-object value")
    | .invalidObject =>
        .error (.typeError "ArrayBuffer constructor returned invalid object")
    | .bufferObject same_as_source new_buffer =>
        if new_buffer.is_detached_buffer then
          .error (.typeError "ArrayBuffer constructor returned detached ArrayBuffer")
        else if same_as_source then
          .error (.typeError "New ArrayBuffer is the same as this ArrayBuffer")
        else if new_buffer.array_buffer_byte_length < new_len then
          .error (.typeError "New ArrayBuffer length too small")
        else if src_after.is_detached_buffer then
          .error (.typeError "ArrayBuffer detached while ArrayBuffer.slice was running")
        else
          .ok { new_buffer with
                array_buffer_data :=
                  some (copy_data_block_bytes
                    (new_buffer.array_buffer_data.getD []) 0
                    (src_after.array_buffer_data.getD []) first.toNat new_len) }

/-- One write request against a buffer, for sequencing `SetValueInBuffer`
calls. -/
structure WriteOp where
  byte_index : ℕ
  element_type : TypedArrayName
  value : JsVal
  order : SharedMemoryOrder
  is_little_endian : Option Bool

/-- Apply a sequence of `SetValueInBuffer` calls, threading the buffer
state. -/
def apply_writes (buf : ArrayBuffer) (ops : List WriteOp) : ArrayBuffer :=
  ops.foldl
    (fun b op =>
      (set_value_in_buffer b op.byte_index op.element_type op.value op.order
        op.is_little_endian).2)
    buf

/-! ### Canonicalization and range predicates for the codec round trip -/

/-- The per-type canonicalization rule of the spec: ToIntN / ToUintN modular
reduction for the integer types, clamping for Uint8Clamped, 64-bit modular
reduction for the BigInt types, rounding to binary32 for Float32 (stated on
bit patterns: narrow with round-to-nearest-even, then widen back to the
Number), and the identity (modulo the 64-bit width) for Float64.  Inputs
outside the type's coercion domain are returned unchanged. -/
def canonicalize (t : TypedArrayName) (x : JsVal) : JsVal :=
  match t, x with
  | .int8Array, .integer i => .integer (signed_reduce 8 i)
  | .uint8Array, .integer i => .integer (unsigned_reduce 8 i)
  | .uint8ClampedArray, .integer i => .integer (min 255 (max 0 i))
  | .int16Array, .integer i => .integer (signed_reduce 16 i)
  | .uint16Array, .integer i => .integer (unsigned_reduce 16 i)
  | .int32Array, .integer i => .integer (signed_reduce 32 i)
  | .uint32Array, .integer i => .integer (unsigned_reduce 32 i)
  | .bigInt64Array, .bigint i => .bigint (signed_reduce 64 i)
  | .bigUint64Array, .bigint i => .bigint (unsigned_reduce 64 i)
  | .float32Array, .rational b =>
      .rational (f32_bits_to_f64_bits (f64_bits_to_f32_bits b))
  | .float64Array, .rational b => .rational (b % 2 ^ 64)
  | _, _ => x

/-- In-range inputs per element type: integral Numbers within the type's
representable range for the integer types, BigInts within the 64-bit range
for the BigInt types, and any Number (given by its binary64 bit pattern)
for the float types. -/
def in_range : TypedArrayName → JsVal → Bool
  | .int8Array, .integer i => decide (-(2 ^ 7) ≤ i ∧ i < 2 ^ 7)
  | .uint8Array, .integer i => decide (0 ≤ i ∧ i < 2 ^ 8)
  | .uint8ClampedArray, .integer i => decide (0 ≤ i ∧ i ≤ 255)
  | .int16Array, .integer i => decide (-(2 ^ 15) ≤ i ∧ i < 2 ^ 15)
  | .uint16Array, .integer i => decide (0 ≤ i ∧ i < 2 ^ 16)
  | .int32Array, .integer i => decide (-(2 ^ 31) ≤ i ∧ i < 2 ^ 31)
  | .uint32Array, .integer i => decide (0 ≤ i ∧ i < 2 ^ 32)
  | .bigInt64Array, .bigint i => decide (-(2 ^ 63) ≤ i ∧ i < 2 ^ 63)
  | .bigUint64Array, .bigint i => decide (0 ≤ i ∧ i < 2 ^ 64)
  | .float32Array, .rational b => decide (b < 2 ^ 64)
  | .float64Array, .rational b => decide (b < 2 ^ 64)
  | _, _ => false

/-! ### Round-trip lemmas for the byte codec -/

theorem bytes_to_nat_le_bytes (w : ℕ) :
    ∀ u : ℕ, u < 2 ^ (8 * w) → bytes_to_nat (le_bytes w u) = u := by
  induction w with
  | zero =>
      intro u hu
      simp only [Nat.mul_zero, pow_zero, Nat.lt_one_iff] at hu
      simp [hu, le_bytes, bytes_to_nat]
  | succ w ih =>
      intro u hu
      have hp : (2 : ℕ) ^ (8 * (w + 1)) = 2 ^ (8 * w) * 256 := by
        rw [show 8 * (w + 1) = 8 * w + 8 by ring, pow_add]
        norm_num
      have hdiv : u / 256 < 2 ^ (8 * w) := by
        rw [Nat.div_lt_iff_lt_mul (by norm_num : 0 < 256)]
        omega
      simp only [le_bytes, bytes_to_nat]
      rw [ih (u / 256) hdiv]
      omega

theorem orient_decode (L : Bool) (ds : List ℕ) :
    (if L then orient_bytes L ds else (orient_bytes L ds).reverse) = ds := by
  cases L <;> simp [orient_bytes]

theorem toNat_emod_lt (i : ℤ) (n : ℕ) : (i % (2 ^ n)).toNat < 2 ^ n := by
  have hpos : (0 : ℤ) < 2 ^ n := by positivity
  have h1 : 0 ≤ i % (2 ^ n) := Int.emod_nonneg i (by positivity)
  have h2 : i % (2 ^ n) < 2 ^ n := Int.emod_lt_of_pos i hpos
  have hcast : (((2 : ℕ) ^ n : ℕ) : ℤ) = (2 : ℤ) ^ n := by push_cast; ring
  omega

theorem emod_toNat_cast (v : ℤ) (n : ℕ) (h0 : 0 ≤ v) (h1 : v < 2 ^ n) :
    (((v % (2 ^ n)).toNat : ℕ) : ℤ) = v := by
  rw [Int.emod_eq_of_lt h0 h1, Int.toNat_of_nonneg h0]

theorem signed_of_unsigned_emod (n : ℕ) (v : ℤ)
    (h2n : (2 : ℤ) ^ n = 2 * 2 ^ (n - 1))
    (h1 : -(2 ^ (n - 1)) ≤ v) (h2 : v < 2 ^ (n - 1)) :
    signed_of_unsigned n ((v % (2 ^ n)).toNat) = v := by
  have hP : (0 : ℤ) < 2 ^ (n - 1) := by positivity
  rcases le_or_lt 0 v with hv | hv
  · have hmod : v % (2 ^ n) = v := Int.emod_eq_of_lt hv (by omega)
    unfold signed_of_unsigned
    rw [hmod, Int.toNat_of_nonneg hv]
    omega
  · have hmod : v % (2 ^ n) = v + 2 ^ n := by
      have h := Int.add_mul_emod_self_left (a := v) (b := 2 ^ n) (c := 1)
      rw [mul_one] at h
      rw [← h]
      exact Int.emod_eq_of_lt (by omega) (by omega)
    unfold signed_of_unsigned
    rw [hmod, Int.toNat_of_nonneg (by omega)]
    omega

theorem signed_reduce_bounds (n : ℕ) (i : ℤ)
    (h2n : (2 : ℤ) ^ n = 2 * 2 ^ (n - 1)) :
    -(2 ^ (n - 1)) ≤ signed_reduce n i ∧ signed_reduce n i < 2 ^ (n - 1) := by
  have hpos : (0 : ℤ) < 2 ^ n := by positivity
  have h1 : 0 ≤ i % (2 ^ n) := Int.emod_nonneg i (by positivity)
  have h2 : i % (2 ^ n) < 2 ^ n := Int.emod_lt_of_pos i hpos
  unfold signed_reduce signed_of_unsigned
  rw [Int.toNat_of_nonneg h1]
  constructor <;> split <;> omega

theorem unsigned_reduce_bounds (n : ℕ) (i : ℤ) :
    0 ≤ unsigned_reduce n i ∧ unsigned_reduce n i < 2 ^ n := by
  have hpos : (0 : ℤ) < 2 ^ n := by positivity
  exact ⟨Int.emod_nonneg i (by positivity), Int.emod_lt_of_pos i hpos⟩

theorem decode_int_bytes (w n : ℕ) (v : ℤ) (hwn : 8 * w = n) (L : Bool) :
    bytes_to_nat (if L then int_bytes w v L else (int_bytes w v L).reverse)
      = (v % (2 ^ n)).toNat := by
  subst hwn
  unfold int_bytes
  rw [orient_decode]
  exact bytes_to_nat_le_bytes w _ (toNat_emod_lt v (8 * w))

theorem f64_bits_to_f32_bits_lt (b : ℕ) : f64_bits_to_f32_bits b < 2 ^ 32 := by
  unfold f64_bits_to_f32_bits
  exact Nat.mod_lt _ (by norm_num)

/-- C1: for every element type, every endianness flag, and every in-range
numeric input, decoding the bytes produced by encoding the input yields the
input after the type's canonicalization (truncation, clamping, or rounding
rule). -/
theorem claim_C1_codec_round_trip (t : TypedArrayName) (L : Bool) (x : JsVal)
    (h : in_range t x = true) :
    ∃ bs, numeric_to_raw_bytes t x L = .ok bs ∧
      raw_bytes_to_numeric t bs L = canonicalize t x := by
  cases t <;> cases x <;> simp only [in_range, decide_eq_true_eq] at h <;>
    try exact absurd h (by decide)
  case int8Array.integer i =>
    refine ⟨_, rfl, ?_⟩
    simp only [raw_bytes_to_numeric, canonicalize]
    rw [decode_int_bytes 1 8 _ (by norm_num)]
    have hb := signed_reduce_bounds 8 i (by norm_num)
    exact congrArg JsVal.integer (signed_of_unsigned_emod 8 _ (by norm_num) hb.1 hb.2)
  case uint8Array.integer i =>
    refine ⟨_, rfl, ?_⟩
    simp only [raw_bytes_to_numeric, canonicalize]
    rw [decode_int_bytes 1 8 _ (by norm_num)]
    have hb := unsigned_reduce_bounds 8 i
    exact congrArg JsVal.integer (emod_toNat_cast _ 8 hb.1 hb.2)
  case uint8ClampedArray.integer i =>
    refine ⟨_, rfl, ?_⟩
    simp only [raw_bytes_to_numeric, canonicalize]
    rw [decode_int_bytes 1 8 _ (by norm_num)]
    exact congrArg JsVal.integer (emod_toNat_cast _ 8 (by omega) (by omega))
  case int16Array.integer i =>
    refine ⟨_, rfl, ?_⟩
    simp only [raw_bytes_to_numeric, canonicalize]
    rw [decode_int_bytes 2 16 _ (by norm_num)]
    have hb := signed_reduce_bounds 16 i (by norm_num)
    exact congrArg JsVal.integer (signed_of_unsigned_emod 16 _ (by norm_num) hb.1 hb.2)
  case uint16Array.integer i =>
    refine ⟨_, rfl, ?_⟩
    simp only [raw_bytes_to_numeric, canonicalize]
    rw [decode_int_bytes 2 16 _ (by norm_num)]
    have hb := unsigned_reduce_bounds 16 i
    exact congrArg JsVal.integer (emod_toNat_cast _ 16 hb.1 hb.2)
  case int32Array.integer i =>
    refine ⟨_, rfl, ?_⟩
    simp only [raw_bytes_to_numeric, canonicalize]
    rw [decode_int_bytes 4 32 _ (by norm_num)]
    have hb := signed_reduce_bounds 32 i (by norm_num)
    exact congrArg JsVal.integer (signed_of_unsigned_emod 32 _ (by norm_num) hb.1 hb.2)
  case uint32Array.integer i =>
    refine ⟨_, rfl, ?_⟩
    simp only [raw_bytes_to_numeric, canonicalize]
    rw [decode_int_bytes 4 32 _ (by norm_num)]
    have hb := unsigned_reduce_bounds 32 i
    exact congrArg JsVal.integer (emod_toNat_cast _ 32 hb.1 hb.2)
  case bigInt64Array.bigint i =>
    have hb := signed_reduce_bounds 64 i (by norm_num)
    norm_num at hb
    have hsat : big_int_to_i64_saturating (signed_reduce 64 i) = signed_reduce 64 i := by
      unfold big_int_to_i64_saturating
      rw [if_pos ⟨hb.1, hb.2⟩]
    refine ⟨_, rfl, ?_⟩
    simp only [raw_bytes_to_numeric, canonicalize, hsat]
    rw [decode_int_bytes 8 64 _ (by norm_num)]
    exact congrArg JsVal.bigint
      (signed_of_unsigned_emod 64 _ (by norm_num) (by norm_num; omega) (by norm_num; omega))
  case bigUint64Array.bigint i =>
    have hb := unsigned_reduce_bounds 64 i
    have hsat : big_int_to_u64_saturating (unsigned_reduce 64 i) = unsigned_reduce 64 i := by
      unfold big_int_to_u64_saturating
      rw [if_pos ⟨hb.1, hb.2⟩]
    refine ⟨_, rfl, ?_⟩
    simp only [raw_bytes_to_numeric, canonicalize, hsat]
    rw [decode_int_bytes 8 64 _ (by norm_num)]
    exact congrArg JsVal.bigint (emod_toNat_cast _ 64 hb.1 hb.2)
  case float32Array.rational b =>
    refine ⟨_, rfl, ?_⟩
    simp only [raw_bytes_to_numeric, canonicalize]
    rw [orient_decode, bytes_to_nat_le_bytes 4 _ (f64_bits_to_f32_bits_lt _),
      Nat.mod_eq_of_lt h]
  case float64Array.rational b =>
    refine ⟨_, rfl, ?_⟩
    simp only [raw_bytes_to_numeric, canonicalize]
    rw [orient_decode, bytes_to_nat_le_bytes 8 _ (Nat.mod_lt _ (by norm_num))]

theorem claim_C1_codec_round_trip_witness :
    in_range .int8Array (.integer (-5)) = true ∧
      (∃ bs, numeric_to_raw_bytes .int8Array (.integer (-5)) true = .ok bs ∧
        raw_bytes_to_numeric .int8Array bs true =
          canonicalize .int8Array (.integer (-5))) :=
  ⟨by decide, claim_C1_codec_round_trip .int8Array true (.integer (-5)) (by decide)⟩

/-- Reversing the little-endian flag reverses the encoded bytes: the generic
shape shared by every arm of `numeric_to_raw_bytes`. -/
theorem map_orient_reverse {α : Type} {c : Except JsErr α} {f : α → List ℕ}
    {bs : List ℕ}
    (h : c.map (fun v => orient_bytes false (f v)) = .ok bs) :
    c.map (fun v => orient_bytes true (f v)) = .ok bs.reverse := by
  cases c with
  | error e => simp [Except.map] at h
  | ok v =>
      simp only [Except.map, Except.ok.injEq] at h ⊢
      rw [← h]
      simp [orient_bytes]

/-- C8: for every element type of byte width greater than one and every
value, the little-endian encoding is the byte reversal of the big-endian
encoding. -/
theorem claim_C8_byte_reversal (t : TypedArrayName) (x : JsVal) (bs : List ℕ)
    (hw : 1 < element_size t)
    (h : numeric_to_raw_bytes t x false = .ok bs) :
    numeric_to_raw_bytes t x true = .ok bs.reverse := by
  cases t <;> simp only [element_size] at hw <;> try omega
  case int16Array =>
    simp only [numeric_to_raw_bytes, int_bytes] at h ⊢
    exact map_orient_reverse h
  case uint16Array =>
    simp only [numeric_to_raw_bytes, int_bytes] at h ⊢
    exact map_orient_reverse h
  case int32Array =>
    simp only [numeric_to_raw_bytes, int_bytes] at h ⊢
    exact map_orient_reverse h
  case uint32Array =>
    simp only [numeric_to_raw_bytes, int_bytes] at h ⊢
    exact map_orient_reverse h
  case bigInt64Array =>
    simp only [numeric_to_raw_bytes, int_bytes] at h ⊢
    exact map_orient_reverse h
  case bigUint64Array =>
    simp only [numeric_to_raw_bytes, int_bytes] at h ⊢
    exact map_orient_reverse h
  case float32Array =>
    simp only [numeric_to_raw_bytes] at h ⊢
    exact map_orient_reverse h
  case float64Array =>
    simp only [numeric_to_raw_bytes] at h ⊢
    exact map_orient_reverse h

theorem claim_C8_byte_reversal_witness :
    1 < element_size .int16Array ∧
      numeric_to_raw_bytes .int16Array (.integer 258) false = .ok [1, 2] ∧
      numeric_to_raw_bytes .int16Array (.integer 258) true = .ok [2, 1] :=
  ⟨by decide, rfl,
    claim_C8_byte_reversal .int16Array (.integer 258) [1, 2] (by decide) rfl⟩

/-- C7: every byte length up to and including `2 ^ 33` allocates a fresh
zero-filled buffer of exactly that many bytes with the byte-length field
equal to the request; every larger request fails with a RangeError. -/
theorem claim_C7_allocate (n : ℕ) :
    (n ≤ 2 ^ 33 →
      allocate n = .ok { array_buffer_data := some (List.replicate n 0)
                         array_buffer_byte_length := n
                         array_buffer_detach_key := none }) ∧
    (2 ^ 33 < n →
      allocate n = .error (.rangeError "ArrayBuffer allocation failed")) := by
  constructor <;> intro h
  · rw [allocate, if_neg (by omega)]
  · rw [allocate, if_pos (by omega)]

theorem claim_C7_allocate_witness :
    allocate 3 = .ok { array_buffer_data := some (List.replicate 3 0)
                       array_buffer_byte_length := 3
                       array_buffer_detach_key := none } ∧
      allocate (2 ^ 33 + 1) = .error (.rangeError "ArrayBuffer allocation failed") :=
  ⟨(claim_C7_allocate 3).1 (by norm_num), (claim_C7_allocate (2 ^ 33 + 1)).2 (by norm_num)⟩

/-- C6: the byteLength getter fails with a TypeError on a non-object
receiver and on an object without the ArrayBuffer slot, returns `0` on a
detached ArrayBuffer, and returns the byte-length field recorded at
construction on a non-detached one. -/
theorem claim_C6_byte_length (b : ArrayBuffer) :
    byte_length .nonObjectValue =
        .error (.typeError "ArrayBuffer.byteLength called with non-object value") ∧
      byte_length .otherObject =
        .error (.typeError "ArrayBuffer.byteLength called with invalid object") ∧
      (b.is_detached_buffer = true → byte_length (.arrayBufferObject b) = .ok 0) ∧
      (b.is_detached_buffer = false →
        byte_length (.arrayBufferObject b) = .ok b.array_buffer_byte_length) := by
  refine ⟨rfl, rfl, ?_, ?_⟩ <;> intro h <;> simp [byte_length, h]

theorem claim_C6_byte_length_witness :
    byte_length (.arrayBufferObject
        { array_buffer_data := none
          array_buffer_byte_length := 5
          array_buffer_detach_key := none }) = .ok 0 ∧
      byte_length (.arrayBufferObject
        { array_buffer_data := some [7, 7]
          array_buffer_byte_length := 2
          array_buffer_detach_key := none }) = .ok 2 :=
  ⟨(claim_C6_byte_length _).2.2.1 rfl, (claim_C6_byte_length _).2.2.2 rfl⟩

/-- C3 (code bug): cloning a detached source buffer fails, but with the
source's `construct_syntax_error` — a SyntaxError — where the claim (and the
ECMAScript specification cited by the source's own doc comment) mandates a
TypeError. -/
theorem claim_C3_clone_detached_raises_syntax_error :
    clone_array_buffer
        { array_buffer_data := none
          array_buffer_byte_length := 4
          array_buffer_detach_key := none } 0 4 =
      .error (.syntaxError "Cannot clone detached array buffer") := rfl

/-- C4 (code bug): `isView` only tests `is_typed_array`, so a DataView —
an object that carries a `ViewedArrayBuffer` internal slot — is reported
`false`, contradicting the claim and the source's own step comment
`If arg has a ViewedArrayBuffer internal slot, return true`.  The other
claimed cases (typed arrays true; plain ArrayBuffers, non-objects, and
ordinary objects false) do hold. -/
theorem claim_C4_is_view_misses_data_view :
    is_view (.objectArg .dataViewKind) = false ∧
      has_viewed_array_buffer_slot .dataViewKind = true ∧
      is_view (.objectArg .typedArrayKind) = true ∧
      is_view (.objectArg .arrayBufferKind) = false ∧
      is_view (.objectArg .ordinaryKind) = false ∧
      is_view .nonObjectArg = false := by decide

/-- C10: on a non-detached buffer and an in-bounds index, if the numeric
coercion inside `SetValueInBuffer` fails then the error is returned
unchanged and the buffer is exactly as it was before the call — no byte is
written. -/
theorem claim_C10_no_partial_write_on_error (buf : ArrayBuffer) (data : List ℕ)
    (byte_index : ℕ) (t : TypedArrayName) (value : JsVal)
    (order : SharedMemoryOrder) (L : Option Bool) (e : JsErr)
    (_hdata : buf.array_buffer_data = some data)
    (_hbound : byte_index + element_size t ≤ data.length)
    (herr : numeric_to_raw_bytes t value (L.getD true) = .error e) :
    set_value_in_buffer buf byte_index t value order L = (.error e, buf) := by
  unfold set_value_in_buffer
  rw [herr]

theorem claim_C10_no_partial_write_on_error_witness :
    set_value_in_buffer
        { array_buffer_data := some [0, 0]
          array_buffer_byte_length := 2
          array_buffer_detach_key := none } 0 .int8Array (.bigint 1) .seqCst none =
      (.error (.typeError "cannot convert bigint to number"),
        { array_buffer_data := some [0, 0]
          array_buffer_byte_length := 2
          array_buffer_detach_key := none }) :=
  claim_C10_no_partial_write_on_error _ [0, 0] 0 .int8Array (.bigint 1) .seqCst none _
    rfl (by decide) rfl

theorem set_value_in_buffer_preserves_byte_length (b : ArrayBuffer)
    (byte_index : ℕ) (t : TypedArrayName) (value : JsVal)
    (order : SharedMemoryOrder) (L : Option Bool) :
    ((set_value_in_buffer b byte_index t value order L).2).array_buffer_byte_length
      = b.array_buffer_byte_length := by
  unfold set_value_in_buffer
  rcases h : numeric_to_raw_bytes t value (L.getD true) with e | raw <;> simp

/-- C9: the byte-length field never changes: any sequence of in-bounds
`SetValueInBuffer` writes leaves `array_buffer_byte_length` exactly as it
was set at construction. -/
theorem claim_C9_byte_length_never_changes (buf : ArrayBuffer) (ops : List WriteOp)
    (hin : ∀ op ∈ ops,
      op.byte_index + element_size op.element_type ≤ buf.array_buffer_byte_length) :
    (apply_writes buf ops).array_buffer_byte_length = buf.array_buffer_byte_length := by
  induction ops generalizing buf with
  | nil => rfl
  | cons op ops ih =>
      have hstep := set_value_in_buffer_preserves_byte_length buf op.byte_index
        op.element_type op.value op.order op.is_little_endian
      have htail := ih ((set_value_in_buffer buf op.byte_index op.element_type
          op.value op.order op.is_little_endian).2)
        (fun o ho => by rw [hstep]; exact hin o (List.mem_cons_of_mem _ ho))
      simp only [apply_writes, List.foldl_cons] at htail ⊢
      rw [htail, hstep]

theorem claim_C9_byte_length_never_changes_witness :
    (apply_writes
        { array_buffer_data := some [0, 0]
          array_buffer_byte_length := 2
          array_buffer_detach_key := none }
        [{ byte_index := 0
           element_type := .int8Array
           value := .integer 1
           order := .seqCst
           is_little_endian := none },
         { byte_index := 1
           element_type := .uint8Array
           value := .integer 300
           order := .seqCst
           is_little_endian := none }]).array_buffer_byte_length = 2 :=
  (claim_C9_byte_length_never_changes _ _ (by decide)).trans rfl

/-! ### Lemmas about byte blocks and `CopyDataBlockBytes` -/

theorem length_set_byte (l : List ℕ) (i v : ℕ) : (set_byte l i v).length = l.length := by
  induction l generalizing i with
  | nil => rfl
  | cons b t ih => cases i <;> simp [set_byte, ih]

theorem get_byte_set_byte_eq (l : List ℕ) (i v : ℕ) (h : i < l.length) :
    get_byte (set_byte l i v) i = v := by
  induction l generalizing i with
  | nil => simp at h
  | cons b t ih =>
      cases i with
      | zero => rfl
      | succ i => exact ih i (by simpa using h)

theorem get_byte_set_byte_ne (l : List ℕ) (i j v : ℕ) (h : i ≠ j) :
    get_byte (set_byte l i v) j = get_byte l j := by
  induction l generalizing i j with
  | nil => rfl
  | cons b t ih =>
      cases i with
      | zero =>
          cases j with
          | zero => exact absurd rfl h
          | succ j => rfl
      | succ i =>
          cases j with
          | zero => rfl
          | succ j => exact ih i j (fun hh => h (by rw [hh]))

theorem length_copy_data_block_bytes (toB fromB : List ℕ) (toI fromI count : ℕ) :
    (copy_data_block_bytes toB toI fromB fromI count).length = toB.length := by
  induction count generalizing toB toI fromI with
  | zero => rfl
  | succ c ih =>
      simp only [copy_data_block_bytes]
      rw [ih, length_set_byte]

theorem get_byte_copy_data_block_bytes_lt (toB fromB : List ℕ)
    (toI fromI count j : ℕ) (h : j < toI) :
    get_byte (copy_data_block_bytes toB toI fromB fromI count) j = get_byte toB j := by
  induction count generalizing toB toI fromI with
  | zero => rfl
  | succ c ih =>
      simp only [copy_data_block_bytes]
      rw [ih _ _ _ (by omega), get_byte_set_byte_ne _ _ _ _ (by omega)]

theorem get_byte_copy_data_block_bytes (toB fromB : List ℕ)
    (toI fromI count i : ℕ) (hi : i < count) (hb : toI + count ≤ toB.length) :
    get_byte (copy_data_block_bytes toB toI fromB fromI count) (toI + i)
      = get_byte fromB (fromI + i) := by
  induction count generalizing toB toI fromI i with
  | zero => omega
  | succ c ih =>
      simp only [copy_data_block_bytes]
      cases i with
      | zero =>
          simp only [Nat.add_zero]
          rw [get_byte_copy_data_block_bytes_lt _ _ _ _ _ _ (by omega),
            get_byte_set_byte_eq _ _ _ (by omega)]
      | succ i =>
          have h := ih (set_byte toB toI (get_byte fromB fromI)) (toI + 1) (fromI + 1) i
            (by omega) (by rw [length_set_byte]; omega)
          rw [show toI + (i + 1) = toI + 1 + i by omega,
            show fromI + (i + 1) = fromI + 1 + i by omega]
          exact h

theorem slice_relative_index_bounds (len : ℤ) (hlen : 0 ≤ len)
    (r : IntegerOrInfinity) :
    0 ≤ slice_relative_index len r ∧ slice_relative_index len r ≤ len := by
  cases r with
  | negativeInfinity => exact ⟨le_refl 0, hlen⟩
  | integer i =>
      simp only [slice_relative_index]
      split <;> constructor <;> omega
  | positiveInfinity => exact ⟨hlen, le_refl len⟩

/-- Evaluation of `slice` on a non-detached buffer with the default
constructor: every validation passes and the result is the freshly
allocated buffer filled by `CopyDataBlockBytes`. -/
theorem slice_default_eq (buf : ArrayBuffer) (data : List ℕ)
    (rs : IntegerOrInfinity) (ea : Option IntegerOrInfinity)
    (first last : ℤ) (newLen : ℕ)
    (hdata : buf.array_buffer_data = some data)
    (hfirst : first = slice_relative_index (buf.array_buffer_byte_length : ℤ) rs)
    (hlast : last = slice_relative_index (buf.array_buffer_byte_length : ℤ)
      (ea.getD (.integer (buf.array_buffer_byte_length : ℤ))))
    (hnew : newLen = (max (last - first) 0).toNat)
    (hcap : newLen ≤ 8589934592) :
    buf.slice rs ea default_ctor =
      .ok { array_buffer_data := some (copy_data_block_bytes
              (List.replicate newLen 0) 0 data first.toNat newLen)
            array_buffer_byte_length := newLen
            array_buffer_detach_key := none } := by
  subst hfirst hlast hnew
  have hdet : buf.is_detached_buffer = false := by
    simp [ArrayBuffer.is_detached_buffer, hdata]
  have hc : ¬ ((max (slice_relative_index (buf.array_buffer_byte_length : ℤ)
      (ea.getD (.integer (buf.array_buffer_byte_length : ℤ))) -
      slice_relative_index (buf.array_buffer_byte_length : ℤ) rs) 0).toNat
      > 8589934592) := by omega
  simp [ArrayBuffer.slice, hdet, default_ctor, allocate, hc, hdata,
    ArrayBuffer.is_detached_buffer]

/-- C2: on a non-detached buffer, `slice` with the default constructor
returns a new buffer whose byte length is `max (final - first) 0` — with
`first` and `final` computed by the relative-index rule (undefined end
treated as the length) — and whose bytes at `[0, newLen)` equal the
source's bytes at `[first, first + newLen)`. -/
theorem claim_C2_slice_length_and_contents (buf : ArrayBuffer) (data : List ℕ)
    (rs : IntegerOrInfinity) (ea : Option IntegerOrInfinity)
    (hdata : buf.array_buffer_data = some data)
    (hlen : data.length = buf.array_buffer_byte_length)
    (hcap : buf.array_buffer_byte_length ≤ 2 ^ 33) :
    ∃ new_buffer,
      buf.slice rs ea default_ctor = .ok new_buffer ∧
      new_buffer.array_buffer_byte_length =
        (max (slice_relative_index (buf.array_buffer_byte_length : ℤ)
            (ea.getD (.integer (buf.array_buffer_byte_length : ℤ))) -
          slice_relative_index (buf.array_buffer_byte_length : ℤ) rs) 0).toNat ∧
      ∀ i < new_buffer.array_buffer_byte_length,
        buffer_byte new_buffer i =
          buffer_byte buf
            ((slice_relative_index (buf.array_buffer_byte_length : ℤ) rs).toNat + i) := by
  have hlen0 : (0 : ℤ) ≤ (buf.array_buffer_byte_length : ℤ) := Int.ofNat_nonneg _
  obtain ⟨hf0, hf1⟩ :=
    slice_relative_index_bounds (buf.array_buffer_byte_length : ℤ) hlen0 rs
  obtain ⟨hl0, hl1⟩ :=
    slice_relative_index_bounds (buf.array_buffer_byte_length : ℤ) hlen0
      (ea.getD (.integer (buf.array_buffer_byte_length : ℤ)))
  have hcap' : (max (slice_relative_index (buf.array_buffer_byte_length : ℤ)
      (ea.getD (.integer (buf.array_buffer_byte_length : ℤ))) -
      slice_relative_index (buf.array_buffer_byte_length : ℤ) rs) 0).toNat
      ≤ 8589934592 := by omega
  refine ⟨_, slice_default_eq buf data rs ea _ _ _ hdata rfl rfl rfl hcap', rfl, ?_⟩
  intro i hi
  unfold buffer_byte
  simp only [hdata, Option.getD_some]
  have h := get_byte_copy_data_block_bytes
    (List.replicate ((max (slice_relative_index (buf.array_buffer_byte_length : ℤ)
        (ea.getD (.integer (buf.array_buffer_byte_length : ℤ))) -
      slice_relative_index (buf.array_buffer_byte_length : ℤ) rs) 0).toNat) 0)
    data 0
    ((slice_relative_index (buf.array_buffer_byte_length : ℤ) rs).toNat)
    ((max (slice_relative_index (buf.array_buffer_byte_length : ℤ)
        (ea.getD (.integer (buf.array_buffer_byte_length : ℤ))) -
      slice_relative_index (buf.array_buffer_byte_length : ℤ) rs) 0).toNat)
    i hi (by simp)
  simpa using h

theorem claim_C2_slice_length_and_contents_witness :
    ∃ new_buffer,
      ArrayBuffer.slice
          { array_buffer_data := some [10, 11, 12, 13]
            array_buffer_byte_length := 4
            array_buffer_detach_key := none }
          (.integer 1) (some (.integer 3)) default_ctor = .ok new_buffer ∧
      new_buffer.array_buffer_byte_length =
        (max (slice_relative_index (4 : ℤ) ((some (IntegerOrInfinity.integer 3)).getD
            (.integer (4 : ℤ))) - slice_relative_index (4 : ℤ) (.integer 1)) 0).toNat ∧
      ∀ i < new_buffer.array_buffer_byte_length,
        buffer_byte new_buffer i =
          buffer_byte
            { array_buffer_data := some [10, 11, 12, 13]
              array_buffer_byte_length := 4
              array_buffer_detach_key := none }
            ((slice_relative_index (4 : ℤ) (.integer 1)).toNat + i) :=
  claim_C2_slice_length_and_contents _ [10, 11, 12, 13] (.integer 1)
    (some (.integer 3)) rfl rfl (by norm_num)

/-- C5: if the species constructor invoked by `slice` detaches the source
buffer while returning an otherwise valid fresh buffer (an attached
ArrayBuffer, distinct from the receiver, of sufficient length), the step-23
re-check observes the detachment and `slice` fails with a TypeError. -/
theorem claim_C5_slice_detach_recheck (buf : ArrayBuffer) (data : List ℕ)
    (rs : IntegerOrInfinity) (ea : Option IntegerOrInfinity)
    (ctor : ℕ → CtorOutcome) (new_buffer : ArrayBuffer) (newLen : ℕ)
    (hdata : buf.array_buffer_data = some data)
    (hnew : newLen = (max (slice_relative_index (buf.array_buffer_byte_length : ℤ)
        (ea.getD (.integer (buf.array_buffer_byte_length : ℤ))) -
      slice_relative_index (buf.array_buffer_byte_length : ℤ) rs) 0).toNat)
    (hctor : ctor newLen =
      { detaches_source := true, ret := .bufferObject false new_buffer })
    (hattached : new_buffer.is_detached_buffer = false)
    (hbig : ¬ new_buffer.array_buffer_byte_length < newLen) :
    buf.slice rs ea ctor =
      .error (.typeError "ArrayBuffer detached while ArrayBuffer.slice was running") := by
  subst hnew
  have hdet : buf.is_detached_buffer = false := by
    simp [ArrayBuffer.is_detached_buffer, hdata]
  have hatt2 : ¬ new_buffer.array_buffer_data = none := by
    intro hn
    rw [ArrayBuffer.is_detached_buffer, hn] at hattached
    simp at hattached
  simp [ArrayBuffer.slice, hdet, hctor, hattached, hbig, hdata, hatt2,
    ArrayBuffer.is_detached_buffer]

theorem claim_C5_slice_detach_recheck_witness :
    ArrayBuffer.slice
        { array_buffer_data := some [1, 2, 3, 4]
          array_buffer_byte_length := 4
          array_buffer_detach_key := none }
        (.integer 0) none
        (fun n => { detaches_source := true
                    ret := .bufferObject false
                      { array_buffer_data := some (List.replicate n 0)
                        array_buffer_byte_length := n
                        array_buffer_detach_key := none } }) =
      .error (.typeError "ArrayBuffer detached while ArrayBuffer.slice was running") :=
  claim_C5_slice_detach_recheck _ [1, 2, 3, 4] (.integer 0) none _
    { array_buffer_data := some (List.replicate 4 0)
      array_buffer_byte_length := 4
      array_buffer_detach_key := none } 4
    rfl (by decide) rfl rfl (by decide)
